import Mathlib

/-!
Verification of the session-addressed request-routing layer of the
spotify-remote-mcp server (`src/index.ts`), its tool registry
(`src/toolsRegistry.ts`), two representative tool handlers
(`src/tools/setVolume.ts`, `src/tools/search.ts`), the bearer-token
verifier (`src/index.ts`) and the custom response deserializer
(`src/spotifyApi.ts`).

The TypeScript code is shallowly embedded as Lean functions.  Behaviour of
the third-party MCP SDK (the `StreamableHTTPServerTransport`, the
`McpServer`, `requireBearerAuth`) and of the network is abstracted into an
oracle record `SdkOracle` whose fields say, for one request, which of the
awaited SDK calls would throw and which session id `randomUUID()` yields;
the handler bodies themselves are translated statement by statement from
the source.
-/

namespace SpotifyMcp

/-- A tool registration entry: the data of `ITool` from
`src/toolsRegistry.ts` (`name`, `description`); the zod schema and the
handler function are abstracted away, the registry never inspects them. -/
structure ToolEntry where
  name : String
  description : String
deriving DecidableEq, Repr

/-- The MCP server object, reduced to the list of tools that have been
registered on it via `server.tool(...)`, in registration order. -/
structure McpServer where
  registered : List ToolEntry
deriving DecidableEq, Repr

/-- The handle returned by `server.tool(...)` (`RegisteredTool` in the
SDK): identified by the entry it binds. -/
structure RegisteredTool where
  entry : ToolEntry
deriving DecidableEq, Repr

/-- Model of `server.tool(name, description, schema, execute)`: registers the tool
on the server and returns the bound handle.  State-passing translation of
the SDK call used by `ToolsRegistry.registerToServer`. -/
def McpServer.tool (s : McpServer) (t : ToolEntry) : McpServer × RegisteredTool :=
  ({ registered := s.registered ++ [t] }, { entry := t })

/-- The `ToolsRegistry` class from `src/toolsRegistry.ts`: `private tools: ITool[]`. -/
structure ToolsRegistry where
  tools : List ToolEntry
deriving DecidableEq, Repr

/-- Model of `register(tool) { this.tools.push(tool); }` -/
def ToolsRegistry.register (r : ToolsRegistry) (t : ToolEntry) : ToolsRegistry :=
  { tools := r.tools ++ [t] }

/-- Model of `registerToServer(server) { return this.tools.map(tool =>
server.tool(...)); }` — state-passing translation of the `map` whose body
mutates `server`; returns the final server and the list of handles in map
order. -/
def ToolsRegistry.registerToServer (r : ToolsRegistry) (s : McpServer) :
    McpServer × List RegisteredTool :=
  r.tools.foldl
    (fun acc t =>
      let st := acc.1.tool t
      (st.1, acc.2 ++ [st.2]))
    (s, [])

/-- Model of `getServer` from `src/index.ts`: build a fresh `McpServer` and call
`toolsRegistry.registerToServer(server)` on it. -/
def getServer (registry : ToolsRegistry) : McpServer :=
  (registry.registerToServer { registered := [] }).1

/-- The per-session transport object held in the `transports` map, reduced
to the tools materialized on the server it is connected to. -/
structure Transport where
  tools : List ToolEntry
deriving DecidableEq, Repr

/-- Model of `const transports: { [sessionId: string]: StreamableHTTPServerTransport } = {}` -/
abbrev Store := List (String × Transport)

/-- Key lookup in the `transports` object. -/
def storeLookup (st : Store) (k : String) : Option Transport :=
  match st with
  | [] => none
  | (k', v) :: rest => if k' = k then some v else storeLookup rest k

/-- Model of `transports[sessionId] = transport`: JS object assignment — replaces
the value when the key is present, adds the key otherwise. -/
def storeInsert (st : Store) (k : String) (v : Transport) : Store :=
  match st with
  | [] => [(k, v)]
  | (k', v') :: rest =>
      if k' = k then (k, v) :: rest else (k', v') :: storeInsert rest k v

/-- Model of `delete transports[sid]`. -/
def storeErase (st : Store) (k : String) : Store :=
  st.filter (fun p => p.1 ≠ k)

/-- The keys of the `transports` object. -/
def storeKeys (st : Store) : List String :=
  st.map Prod.fst

/-- JS truthiness of `req.headers['mcp-session-id'] as string | undefined`:
`undefined` and the empty string are falsy. -/
def jsTruthy : Option String → Bool
  | none => false
  | some s => !s.isEmpty

/-- An inbound `/mcp` request body, abstracted to whether the SDK's
`isInitializeRequest` recognizes it. -/
inductive McpBody where
  | initReq : McpBody
  | otherReq (tag : Nat) : McpBody
deriving DecidableEq, Repr

/-- Model of `isInitializeRequest(req.body)` from the SDK. -/
def isInitializeRequest : McpBody → Bool
  | .initReq => true
  | .otherReq _ => false

/-- A response body: the JSON-RPC error envelope
`{jsonrpc: '2.0', error: {code, message}, id: null}`, a plain-text body
(`res.send(...)`), or an opaque body produced by
`transport.handleRequest`. -/
inductive RespBody where
  | envelope (code : Int) (message : String) : RespBody
  | text (s : String) : RespBody
  | fromTransport : RespBody
deriving DecidableEq, Repr

/-- An HTTP response: status code and body. -/
structure HttpResponse where
  status : Nat
  body : RespBody
deriving DecidableEq, Repr

/-- Model of `res.status(400).json({jsonrpc:'2.0', error:{code:-32000, message:
'Bad Request: No valid session ID provided'}, id:null})` -/
def badRequestEnvelope : HttpResponse :=
  { status := 400, body := .envelope (-32000) "Bad Request: No valid session ID provided" }

/-- Model of `res.status(500).json({jsonrpc:'2.0', error:{code:-32603, message:
'Internal server error'}, id:null})` -/
def internalErrorEnvelope : HttpResponse :=
  { status := 500, body := .envelope (-32603) "Internal server error" }

/-- Behaviour of the SDK and of `randomUUID()` for one request:
`newSessionId` is what `sessionIdGenerator` would return; each `*Fails`
field says whether the corresponding awaited call throws. -/
structure SdkOracle where
  newSessionId : String
  materializeFails : Bool
  connectFails : Bool
  initHandleFails : Bool
  reuseHandleFails : Bool
  getHandleFails : Bool
  deleteHandleFails : Bool
deriving DecidableEq, Repr

/-- One observable step of the POST handler, in program order. -/
inductive Action where
  | constructTransport : Action
  | materializeTools (server : McpServer) : Action
  | connect : Action
  | forwardNew (body : McpBody) : Action
  | publish (sid : String) (t : Transport) : Action
  | forwardExisting (sid : String) (body : McpBody) : Action
  | throwCaught : Action
  | respond (r : HttpResponse) : Action
deriving DecidableEq, Repr

/-- Model of `mcpPostHandler` from `src/index.ts`, as the ordered list of actions it
performs.  The branch structure mirrors the source: reuse when
`sessionId && transports[sessionId]`, create when
`!sessionId && isInitializeRequest(req.body)`, otherwise respond with the
400 envelope; the whole body is inside `try { ... } catch` responding with
the 500 envelope.  On the create path the SDK fires
`onsessioninitialized` (modelled as `publish`) inside
`transport.handleRequest` after the transport was connected. -/
def mcpPostActions (registry : ToolsRegistry) (store : Store)
    (header : Option String) (body : McpBody) (o : SdkOracle) : List Action :=
  if jsTruthy header && (storeLookup store (header.getD "")).isSome then
    if o.reuseHandleFails then
      [.forwardExisting (header.getD "") body, .throwCaught, .respond internalErrorEnvelope]
    else
      [.forwardExisting (header.getD "") body, .respond { status := 200, body := .fromTransport }]
  else if !jsTruthy header && isInitializeRequest body then
    if o.materializeFails then
      [.constructTransport, .throwCaught, .respond internalErrorEnvelope]
    else if o.connectFails then
      [.constructTransport, .materializeTools (getServer registry),
       .throwCaught, .respond internalErrorEnvelope]
    else if o.initHandleFails then
      [.constructTransport, .materializeTools (getServer registry), .connect,
       .forwardNew body, .throwCaught, .respond internalErrorEnvelope]
    else
      [.constructTransport, .materializeTools (getServer registry), .connect,
       .forwardNew body,
       .publish o.newSessionId { tools := (getServer registry).registered },
       .respond { status := 200, body := .fromTransport }]
  else
    [.respond badRequestEnvelope]

/-- Effect of one action on the `transports` map: only
`onsessioninitialized` (`publish`) mutates it during a POST. -/
def applyAction (store : Store) : Action → Store
  | .publish sid t => storeInsert store sid t
  | _ => store

/-- The `transports` map after `mcpPostHandler` ran. -/
def mcpPostStore (registry : ToolsRegistry) (store : Store)
    (header : Option String) (body : McpBody) (o : SdkOracle) : Store :=
  (mcpPostActions registry store header body o).foldl applyAction store

/-- The last `res....` call of an action list. -/
def responseOf (acts : List Action) : Option HttpResponse :=
  acts.foldl
    (fun acc a =>
      match a with
      | .respond r => some r
      | _ => acc)
    none

/-- The HTTP response `mcpPostHandler` produces. -/
def mcpPostResponse (registry : ToolsRegistry) (store : Store)
    (header : Option String) (body : McpBody) (o : SdkOracle) : Option HttpResponse :=
  responseOf (mcpPostActions registry store header body o)

/-- Model of `mcpGetHandler` from `src/index.ts`.  There is no `try`/`catch` around
`transport.handleRequest(req, res)`, so a throw there escapes the handler:
the result is `Except`, with `.error` meaning an uncaught exception. -/
def mcpGetHandler (store : Store) (header : Option String) (o : SdkOracle) :
    Except String HttpResponse :=
  if !(jsTruthy header && (storeLookup store (header.getD "")).isSome) then
    .ok { status := 400, body := .text "Invalid or missing session ID" }
  else if o.getHandleFails then
    .error "uncaught exception from transport.handleRequest"
  else
    .ok { status := 200, body := .fromTransport }

/-- Model of `mcpDeleteHandler` from `src/index.ts`: unknown or missing session →
400 plain text; otherwise `transport.handleRequest` inside `try`/`catch`.
On success the SDK closes the transport, firing the `onclose` handler
installed at creation, which deletes `transports[sid]`; on a throw the
catch responds 500 plain text. -/
def mcpDeleteHandler (store : Store) (header : Option String) (o : SdkOracle) :
    Store × HttpResponse :=
  if !(jsTruthy header && (storeLookup store (header.getD "")).isSome) then
    (store, { status := 400, body := .text "Invalid or missing session ID" })
  else if o.deleteHandleFails then
    (store, { status := 500, body := .text "Error processing session termination" })
  else
    (storeErase store (header.getD ""), { status := 200, body := .fromTransport })

/-- One inbound authenticated `/mcp` request, with its SDK oracle. -/
inductive ReqEvent where
  | post (header : Option String) (body : McpBody) (o : SdkOracle) : ReqEvent
  | get (header : Option String) (o : SdkOracle) : ReqEvent
  | delete (header : Option String) (o : SdkOracle) : ReqEvent
deriving DecidableEq, Repr

/-- The `transports` map after one request was handled. -/
def stepStore (registry : ToolsRegistry) (store : Store) : ReqEvent → Store
  | .post h b o => mcpPostStore registry store h b o
  | .get _ _ => store
  | .delete h o => (mcpDeleteHandler store h o).1

/-- The `transports` map reached from process start by a sequence of
requests. -/
def runTrace (registry : ToolsRegistry) (events : List ReqEvent) : Store :=
  events.foldl (stepStore registry) []

/-- The `randomUUID()` value the event's oracle supplies. -/
def genIdOf : ReqEvent → String
  | .post _ _ o => o.newSessionId
  | .get _ o => o.newSessionId
  | .delete _ o => o.newSessionId

/-- The session id this event publishes into the store, if any: only a
POST on the create path whose materialization, connection and initialize
handling all succeed fires `onsessioninitialized`.  The decision does not
depend on the current store. -/
def eventPublishes : ReqEvent → Option String
  | .post h b o =>
      if !jsTruthy h && isInitializeRequest b &&
          !o.materializeFails && !o.connectFails && !o.initHandleFails then
        some o.newSessionId
      else
        none
  | .get _ _ => none
  | .delete _ _ => none

/-- The session ids published over a request sequence, in order. -/
def publishedIds (events : List ReqEvent) : List String :=
  events.filterMap eventPublishes

/-! ## Bearer-token verifier (`src/index.ts`) -/

/-- Model of `const SCOPES = [...]` from `src/index.ts`. -/
def SCOPES : List String :=
  ["user-read-private", "user-read-email", "user-read-playback-state",
   "user-modify-playback-state"]

/-- Outcome of `fetch('https://api.spotify.com/v1/me', ...)`: the `ok`
flag and the body text used in the error message. -/
structure ProfileResponse where
  ok : Bool
  bodyText : String
deriving DecidableEq, Repr

/-- The auth info returned by `tokenVerifier.verifyAccessToken`.
`expiresAt` is in epoch seconds as a rational, mirroring the JS float
`Date.now() / 1000 + 3600`. -/
structure AuthInfo where
  token : String
  clientId : String
  scopes : List String
  expiresAt : ℚ
deriving DecidableEq, Repr

/-- Model of `tokenVerifier.verifyAccessToken` from `src/index.ts`, with the fetch
outcome and `Date.now()` (milliseconds) passed explicitly. -/
def verifyAccessToken (token : String) (resp : ProfileResponse) (nowMs : ℚ) :
    Except String AuthInfo :=
  if !resp.ok then
    .error ("Invalid or expired token: " ++ resp.bodyText)
  else
    .ok { token := token, clientId := "UNUSED", scopes := SCOPES,
          expiresAt := nowMs / 1000 + 3600 }

/-- The required-scope check `requireBearerAuth` performs with
`requiredScopes`: every required scope must be among the granted ones. -/
def scopesSatisfy (required granted : List String) : Bool :=
  required.all (fun s => granted.contains s)

/-! ## Custom response deserializer (`src/spotifyApi.ts`) -/

/-- An abstract parsed JSON value. -/
structure JsonVal where
  val : Nat
deriving DecidableEq, Repr

/-- Errors a deserialization can raise: the repository's `JsonParseError`,
or the raw `SyntaxError` that `JSON.parse` itself throws. -/
inductive DeserializeError where
  | jsonParseError (message : String) : DeserializeError
  | syntaxError (message : String) : DeserializeError
deriving DecidableEq, Repr

/-- Model of `JSON.parse(text)` with its success/failure behaviour supplied by the
oracle `parse`: `none` means `JSON.parse` throws a `SyntaxError`. -/
def jsonParse (parse : String → Option JsonVal) (text : String) :
    Except DeserializeError JsonVal :=
  match parse text with
  | some j => .ok j
  | none => .error (.syntaxError text)

/-- The custom `deserialize` from `src/spotifyApi.ts`: empty body → `null`
(here `none`); non-empty body → `JSON.parse` inside `try`, rethrowing any
parse failure as `JsonParseError`. -/
def deserialize (parse : String → Option JsonVal) (text : String) :
    Except DeserializeError (Option JsonVal) :=
  if text.length > 0 then
    match jsonParse parse text with
    | .ok j => .ok (some j)
    | .error _ => .error (.jsonParseError ("Failed to parse JSON response: " ++ text))
  else
    .ok none

/-! ## Tool handlers (`src/tools/setVolume.ts`, `src/tools/search.ts`)

Each `execute` is embedded as a function into
`Except String CallToolResult`: `.error msg` means the promise rejects
with an `Error` whose message is `msg`, i.e. the throw propagates to the
caller.  The Spotify web-API calls are oracles of type `Except String _`
recording whether the awaited call rejects. -/

/-- One `{type: 'text', text}` content item. -/
structure ContentItem where
  text : String
deriving DecidableEq, Repr

/-- A `CallToolResult`. -/
structure CallToolResult where
  content : List ContentItem
deriving DecidableEq, Repr

/-- Build the `{content: [{type:'text', text}]}` result. -/
def textResult (s : String) : CallToolResult :=
  { content := [{ text := s }] }

/-- JS `String.prototype.includes`. -/
def jsIncludes (s pattern : String) : Bool :=
  (s.splitOn pattern).length != 1

/-- A device as returned by the player endpoints; `id` may be `null`. -/
structure DeviceInfo where
  id : Option String
  name : String
  kind : String
deriving DecidableEq, Repr

/-- A playback state; `device` may be absent. -/
structure PlaybackState where
  device : Option DeviceInfo
deriving DecidableEq, Repr

/-- Outcomes of the three Spotify player calls `setVolume` can make.
`getPlaybackState` may resolve to `none` (empty 204 body deserialized to
`null`). -/
structure VolumeOracle where
  getPlaybackState : Except String (Option PlaybackState)
  getAvailableDevices : Except String (List DeviceInfo)
  setPlaybackVolume : Nat → Option String → Except String Unit
deriving Inhabited

/-- Arguments of `set_volume`. -/
structure SetVolumeArgs where
  volume_percent : Nat
  device_id : Option String
deriving DecidableEq, Repr

/-- The tail of `SetVolumeTool.execute`'s `try` block: call
`spotify.player.setPlaybackVolume(args.volume_percent, deviceId)` and
return the success message; a rejection propagates to the enclosing
`catch`. -/
def setVolumeFinish (args : SetVolumeArgs) (deviceId : Option String)
    (deviceInfo : String) (o : VolumeOracle) : Except String CallToolResult :=
  match o.setPlaybackVolume args.volume_percent deviceId with
  | .ok _ =>
      .ok (textResult ("Volume set to " ++ toString args.volume_percent ++
        "% successfully" ++ deviceInfo ++ "."))
  | .error e => .error e

/-- The `try` block of `SetVolumeTool.execute`: resolve the target device
(with its own inner `try`/`catch`es) and set the volume. -/
def setVolumeTryBody (args : SetVolumeArgs) (o : VolumeOracle) :
    Except String CallToolResult :=
  if !jsTruthy args.device_id then
    match o.getPlaybackState with
    | .error _ =>
        setVolumeFinish args none "" o
    | .ok ps =>
        let did := (ps.bind (fun p => p.device)).bind (fun d => d.id)
        if jsTruthy did then
          match ps.bind (fun p => p.device) with
          | some d =>
              setVolumeFinish args did (" on " ++ d.name ++ " (" ++ d.kind ++ ")") o
          | none =>
              setVolumeFinish args did "" o
        else
          .ok (textResult
            "No active playback found. Make sure Spotify is playing music on a device.")
  else
    match o.getAvailableDevices with
    | .error _ =>
        setVolumeFinish args args.device_id (" on device " ++ args.device_id.getD "") o
    | .ok devices =>
        match devices.find? (fun d => d.id == args.device_id) with
        | some target =>
            setVolumeFinish args args.device_id
              (" on " ++ target.name ++ " (" ++ target.kind ++ ")") o
        | none =>
            setVolumeFinish args args.device_id (" on device " ++ args.device_id.getD "") o

/-- The `catch` block of `SetVolumeTool.execute`: map the error message to
one of the specific texts, falling back to the generic one. -/
def setVolumeCatch (msg : String) : CallToolResult :=
  if jsIncludes msg "scope" then
    textResult ("Error: Insufficient permissions to control playback. The Spotify token needs " ++
      "the \"user-modify-playback-state\" scope to set volume.")
  else if jsIncludes msg "Premium" then
    textResult "Error: This feature requires Spotify Premium. Volume control is only available for Premium users."
  else if jsIncludes msg "Device not found" then
    textResult "Error: The specified device was not found or is not available."
  else if jsIncludes msg "No active device" then
    textResult "Error: No active device found. Please start playing music on a Spotify device first."
  else if jsIncludes msg "Volume not supported" then
    textResult "Error: Volume control is not supported on this device."
  else if jsIncludes msg "Invalid volume" then
    textResult "Error: Invalid volume value. Volume must be between 0 and 100."
  else
    textResult ("Error setting volume: " ++ msg)

/-- Model of `SetVolumeTool.execute` from `src/tools/setVolume.ts`: auth guard,
then the `try` block with every rejection routed into the `catch`. -/
def setVolumeExecute (args : SetVolumeArgs) (auth : Option AuthInfo)
    (o : VolumeOracle) : Except String CallToolResult :=
  match auth with
  | none => .ok (textResult "You are not authenticated.")
  | some _ =>
      match setVolumeTryBody args o with
      | .ok r => .ok r
      | .error e => .ok (setVolumeCatch e)

/-- Arguments of `search`. -/
structure SearchArgs where
  q : String
  kinds : List String
  limit : Nat
  offset : Nat
deriving DecidableEq, Repr

/-- Outcome of `spotify.search(q, type, 'US', limit, offset)`: the
JSON-stringified result on resolution, the error message on rejection. -/
structure SearchOracle where
  search : String → List String → String → Nat → Nat → Except String String
deriving Inhabited

/-- Model of `SearchTool.execute` from `src/tools/search.ts`: auth guard, then the
search call with **no** `try`/`catch` — a rejection of `spotify.search`
propagates to the caller. -/
def searchExecute (args : SearchArgs) (auth : Option AuthInfo)
    (o : SearchOracle) : Except String CallToolResult :=
  match auth with
  | none => .ok (textResult "You are not authenticated.")
  | some _ =>
      match o.search args.q args.kinds "US" args.limit args.offset with
      | .ok result =>
          .ok (textResult ("Here is the result of the Spotify Search: " ++ result ++ "."))
      | .error e => .error e

/-- Whether an action is the `onsessioninitialized` publication. -/
def isPublish : Action → Bool
  | .publish _ _ => true
  | _ => false

/-- A sample oracle for which no SDK call fails. -/
def oracleOk : SdkOracle :=
  { newSessionId := "u", materializeFails := false, connectFails := false,
    initHandleFails := false, reuseHandleFails := false,
    getHandleFails := false, deleteHandleFails := false }

/-! ## Helper lemmas -/

theorem registerToServer_foldl (ts : List ToolEntry) (s : McpServer)
    (hs : List RegisteredTool) :
    ts.foldl
      (fun acc t =>
        let st := acc.1.tool t
        (st.1, acc.2 ++ [st.2]))
      (s, hs) =
      ({ registered := s.registered ++ ts },
       hs ++ ts.map (fun t => { entry := t })) := by
  induction ts generalizing s hs with
  | nil => simp
  | cons t ts ih =>
      rw [List.foldl_cons]
      change List.foldl _
        (McpServer.mk (s.registered ++ [t]), hs ++ [RegisteredTool.mk t]) ts = _
      rw [ih]
      simp

theorem registerToServer_eq (r : ToolsRegistry) (s : McpServer) :
    r.registerToServer s =
      ({ registered := s.registered ++ r.tools },
       r.tools.map (fun t => { entry := t })) := by
  simpa using registerToServer_foldl r.tools s []

theorem getServer_registered (registry : ToolsRegistry) :
    (getServer registry).registered = registry.tools := by
  simp [getServer, registerToServer_eq]

/-! ## Claims -/

/-- Claim C7: `ToolsRegistry.register` appends the given entry to the end
of the registry's ordered collection and never fails on a duplicate name
(two registrations with the same name simply coexist, both appended);
`ToolsRegistry.registerToServer` binds exactly one handle per registered
entry, in registration order, and returns the bound handles in that same
order (and the server ends up with precisely the registry's entries
appended in order). -/
theorem register_appends_and_bind_in_order (r : ToolsRegistry)
    (t u : ToolEntry) (s : McpServer) :
    (r.register t).tools = r.tools ++ [t]
    ∧ ((r.register t).register u).tools = r.tools ++ [t, u]
    ∧ (r.registerToServer s).2 = r.tools.map (fun e => { entry := e })
    ∧ (r.registerToServer s).2.length = r.tools.length
    ∧ (r.registerToServer s).1.registered = s.registered ++ r.tools := by
  refine ⟨rfl, ?_, ?_, ?_, ?_⟩
  · simp [ToolsRegistry.register]
  · simp [registerToServer_eq]
  · simp [registerToServer_eq]
  · simp [registerToServer_eq]

/-- Claim C9: whenever the profile request succeeds,
`tokenVerifier.verifyAccessToken` returns auth info whose `scopes` is
exactly the fixed `SCOPES` list and whose `expiresAt` is one hour past the
call time (`Date.now() / 1000 + 3600`), independent of the scopes the
token was actually granted; hence the `requiredScopes` check of the
bearer-auth middleware (which requires `SCOPES`) can never fail for a
token the profile endpoint accepts. -/
theorem verifyAccessToken_fixed_scopes (token : String)
    (resp : ProfileResponse) (nowMs : ℚ) (hok : resp.ok = true) :
    verifyAccessToken token resp nowMs =
      .ok { token := token, clientId := "UNUSED", scopes := SCOPES,
            expiresAt := nowMs / 1000 + 3600 }
    ∧ (∀ info, verifyAccessToken token resp nowMs = .ok info →
        info.scopes = SCOPES ∧ info.expiresAt = nowMs / 1000 + 3600
        ∧ scopesSatisfy SCOPES info.scopes = true) := by
  constructor
  · simp [verifyAccessToken, hok]
  · intro info hinfo
    have h1 : verifyAccessToken token resp nowMs =
        .ok { token := token, clientId := "UNUSED", scopes := SCOPES,
              expiresAt := nowMs / 1000 + 3600 } := by
      simp [verifyAccessToken, hok]
    rw [h1] at hinfo
    injection hinfo with h2
    subst h2
    refine ⟨rfl, rfl, ?_⟩
    show scopesSatisfy SCOPES SCOPES = true
    decide

/-- Witness for C9 at a concrete accepted token. -/
theorem verifyAccessToken_fixed_scopes_check :
    verifyAccessToken "tok" { ok := true, bodyText := "" } 0 =
      .ok { token := "tok", clientId := "UNUSED", scopes := SCOPES,
            expiresAt := (0 : ℚ) / 1000 + 3600 } :=
  (verifyAccessToken_fixed_scopes "tok" { ok := true, bodyText := "" } 0 rfl).1

/-- Claim C10: the custom Spotify-API response deserializer is total over
response bodies: an empty body text yields `null` (`none`); a non-empty
body that `JSON.parse` accepts yields the parsed value; a non-empty body
that fails to parse raises `JsonParseError` — never the raw `SyntaxError`
of `JSON.parse`. -/
theorem deserialize_totality (parse : String → Option JsonVal) (text : String) :
    (text = "" → deserialize parse text = .ok none)
    ∧ (text ≠ "" → ∀ j, parse text = some j →
        deserialize parse text = .ok (some j))
    ∧ (text ≠ "" → parse text = none →
        deserialize parse text =
          .error (.jsonParseError ("Failed to parse JSON response: " ++ text)))
    ∧ (∀ m, deserialize parse text ≠ .error (.syntaxError m)) := by
  have hlen : text ≠ "" → text.length > 0 := by
    intro h
    cases text with
    | mk data =>
      cases data with
      | nil => simp at h
      | cons c cs => simp [String.length]
  refine ⟨?_, ?_, ?_, ?_⟩
  · intro h
    subst h
    simp [deserialize, String.length]
  · intro h j hj
    simp [deserialize, hlen h, jsonParse, hj]
  · intro h hj
    simp [deserialize, hlen h, jsonParse, hj]
  · intro m
    unfold deserialize jsonParse
    split
    · cases hp : parse text <;> simp [hp]
    · simp

/-- Witness for C10 at concrete bodies: empty body, parsable body, and
unparsable body. -/
theorem deserialize_totality_check :
    deserialize (fun _ => some { val := 7 }) "" = .ok none
    ∧ deserialize (fun _ => some { val := 7 }) "x" = .ok (some { val := 7 })
    ∧ deserialize (fun _ => none) "x" =
        .error (.jsonParseError ("Failed to parse JSON response: " ++ "x")) := by
  refine ⟨(deserialize_totality (fun _ => some { val := 7 }) "").1 rfl,
    (deserialize_totality (fun _ => some { val := 7 }) "x").2.1 (by decide) _ rfl,
    (deserialize_totality (fun _ => none) "x").2.2.1 (by decide) rfl⟩

/-- Counterexample to claim C8 as stated: `SearchTool.execute` performs
the `spotify.search` call outside any `try`/`catch`, so a rejected search
propagates the throw to the caller instead of returning a result value
(the repository's own search tests assert this `rejects.toThrow`
behaviour). -/
theorem searchExecute_propagates_throw :
    searchExecute { q := "q", kinds := ["track"], limit := 20, offset := 0 }
      (some { token := "t", clientId := "UNUSED", scopes := SCOPES, expiresAt := 0 })
      { search := fun _ _ _ _ _ => .error "Spotify API Error" } =
      .error "Spotify API Error" := rfl

/-- Claim C8, amended: handlers that wrap their work in `try`/`catch`
surface a failing call as exactly one structured result — in particular
`SetVolumeTool.execute` returns a result value for every oracle behaviour,
never propagating a throw — but `SearchTool.execute` does not catch: an
error from the search call propagates to its caller. -/
theorem setVolumeExecute_never_throws (args : SetVolumeArgs)
    (auth : Option AuthInfo) (o : VolumeOracle) :
    ∃ r, setVolumeExecute args auth o = .ok r := by
  cases auth with
  | none => exact ⟨textResult "You are not authenticated.", rfl⟩
  | some a =>
      cases h : setVolumeTryBody args o with
      | ok r => exact ⟨r, by simp [setVolumeExecute, h]⟩
      | error e => exact ⟨setVolumeCatch e, by simp [setVolumeExecute, h]⟩

theorem storeLookup_eq_none_iff (st : Store) (k : String) :
    storeLookup st k = none ↔ k ∉ storeKeys st := by
  induction st with
  | nil => simp [storeLookup, storeKeys]
  | cons p rest ih =>
      obtain ⟨k', v⟩ := p
      by_cases h : k' = k
      · subst h
        simp [storeLookup, storeKeys]
      · simp [storeLookup, storeKeys, h, ih]
        intro hk
        exact fun he => h he.symm

theorem storeLookup_isSome_iff (st : Store) (k : String) :
    (storeLookup st k).isSome = true ↔ k ∈ storeKeys st := by
  rw [← Decidable.not_iff_not, ← storeLookup_eq_none_iff st k]
  cases storeLookup st k <;> simp

theorem storeKeys_erase_sublist (st : Store) (k : String) :
    (storeKeys (storeErase st k)).Sublist (storeKeys st) :=
  List.Sublist.map Prod.fst (List.filter_sublist st)

theorem storeLookup_erase_self (st : Store) (k : String) :
    storeLookup (storeErase st k) k = none := by
  rw [storeLookup_eq_none_iff]
  intro hmem
  simp only [storeKeys, storeErase, List.mem_map] at hmem
  obtain ⟨p, hp, hpk⟩ := hmem
  rw [List.mem_filter] at hp
  have hne2 : ¬ p.1 = k := by simpa using hp.2
  exact hne2 hpk

theorem storeKeys_insert (st : Store) (k : String) (v : Transport) :
    storeKeys (storeInsert st k v) =
      if k ∈ storeKeys st then storeKeys st else storeKeys st ++ [k] := by
  induction st with
  | nil => simp [storeInsert, storeKeys]
  | cons p rest ih =>
      obtain ⟨k', v'⟩ := p
      by_cases h : k' = k
      · subst h
        simp [storeInsert, storeKeys]
      · have hne : k ≠ k' := fun he => h he.symm
        have lhs : storeKeys (storeInsert ((k', v') :: rest) k v) =
            k' :: storeKeys (storeInsert rest k v) := by
          simp [storeInsert, h, storeKeys]
        rw [lhs, ih]
        by_cases hmem : k ∈ storeKeys rest
        · rw [if_pos hmem,
            if_pos (show k ∈ storeKeys ((k', v') :: rest) by
              simp only [storeKeys, List.map_cons, List.mem_cons]
              exact Or.inr hmem)]
          simp [storeKeys]
        · rw [if_neg hmem,
            if_neg (show k ∉ storeKeys ((k', v') :: rest) by
              simp [storeKeys, hne]
              simpa [storeKeys] using hmem)]
          simp [storeKeys]

theorem storeKeys_insert_nodup (st : Store) (k : String) (v : Transport)
    (h : (storeKeys st).Nodup) : (storeKeys (storeInsert st k v)).Nodup := by
  rw [storeKeys_insert]
  by_cases hmem : k ∈ storeKeys st
  · simpa [hmem]
  · simp only [if_neg hmem]
    simp [List.nodup_append, h, hmem]

theorem mem_storeKeys_insert (st : Store) (k a : String) (v : Transport)
    (ha : a ∈ storeKeys (storeInsert st k v)) : a ∈ storeKeys st ∨ a = k := by
  rw [storeKeys_insert] at ha
  by_cases hmem : k ∈ storeKeys st
  · simp only [if_pos hmem] at ha
    exact Or.inl ha
  · simp only [if_neg hmem, List.mem_append, List.mem_singleton] at ha
    exact ha

/-- Requests bearing a session id that is not in the `transports` map:
POST answers the 400 JSON-RPC envelope and changes nothing, GET and
DELETE answer 400 plain text and change nothing. -/
theorem unknown_sid_rejected (registry : ToolsRegistry) (st : Store)
    (sid : String) (b : McpBody) (o : SdkOracle)
    (hne : sid.isEmpty = false) (h : storeLookup st sid = none) :
    mcpPostActions registry st (some sid) b o = [.respond badRequestEnvelope]
    ∧ mcpPostStore registry st (some sid) b o = st
    ∧ mcpGetHandler st (some sid) o =
        .ok { status := 400, body := .text "Invalid or missing session ID" }
    ∧ mcpDeleteHandler st (some sid) o =
        (st, { status := 400, body := .text "Invalid or missing session ID" }) := by
  have h1 : jsTruthy (some sid) = true := by simp [jsTruthy, hne]
  refine ⟨?_, ?_, ?_, ?_⟩ <;>
    simp [mcpPostActions, mcpPostStore, mcpGetHandler, mcpDeleteHandler,
      h1, h, applyAction, List.foldl_cons, List.foldl_nil]

/-- Claim C1: for every authenticated POST `/mcp` request the router
dispatches with exactly this priority: a request whose (non-empty) session
header is in the store is forwarded to that existing transport and nothing
is created or published; otherwise a request with no (or empty — JS falsy)
session header whose body is an initialize request constructs a new
transport, materializes every registered tool onto a fresh server,
connects it and forwards the original initialize body into it; every other
request (unknown session id, or no session id with a non-initialize body)
is answered with the 400 JSON-RPC error envelope and no transport is
constructed. -/
theorem post_dispatch_priority (registry : ToolsRegistry) (store : Store)
    (header : Option String) (body : McpBody) (o : SdkOracle) :
    (∀ s, header = some s → s.isEmpty = false →
      (storeLookup store s).isSome = true →
      Action.forwardExisting s body ∈ mcpPostActions registry store header body o
      ∧ Action.constructTransport ∉ mcpPostActions registry store header body o
      ∧ (∀ sid t, Action.publish sid t ∉ mcpPostActions registry store header body o)
      ∧ mcpPostStore registry store header body o = store)
    ∧ (jsTruthy header = false → isInitializeRequest body = true →
      o.materializeFails = false → o.connectFails = false →
      o.initHandleFails = false →
      mcpPostActions registry store header body o =
        [.constructTransport, .materializeTools (getServer registry), .connect,
         .forwardNew body,
         .publish o.newSessionId { tools := (getServer registry).registered },
         .respond { status := 200, body := .fromTransport }]
      ∧ (getServer registry).registered = registry.tools)
    ∧ ((jsTruthy header = true → storeLookup store (header.getD "") = none) →
      (jsTruthy header = true ∨ isInitializeRequest body = false) →
      mcpPostActions registry store header body o = [.respond badRequestEnvelope]
      ∧ Action.constructTransport ∉ mcpPostActions registry store header body o
      ∧ mcpPostStore registry store header body o = store) := by
  refine ⟨?_, ?_, ?_⟩
  · rintro s rfl hs hlook
    have h1 : jsTruthy (some s) = true := by simp [jsTruthy, hs]
    cases hr : o.reuseHandleFails <;>
      simp [mcpPostActions, mcpPostStore, h1, hlook, hr, applyAction]
  · intro h1 h2 h3 h4 h5
    refine ⟨?_, getServer_registered registry⟩
    simp [mcpPostActions, h1, h2, h3, h4, h5]
  · intro hunknown hother
    have hcond : (jsTruthy header &&
        (storeLookup store (header.getD "")).isSome) = false := by
      cases ht : jsTruthy header
      · simp
      · simp [hunknown ht]
    have hcond2 : (!jsTruthy header && isInitializeRequest body) = false := by
      rcases hother with ht | hb
      · simp [ht]
      · simp [hb]
    refine ⟨?_, ?_, ?_⟩ <;>
      simp [mcpPostActions, mcpPostStore, hcond, hcond2, applyAction]

/-- Witness for C1: a live session "sess" with a non-initialize body is
reused; the same store with an unknown id "nope" is rejected with the
envelope; an initialize request with no header creates and publishes. -/
theorem post_dispatch_priority_check :
    (Action.forwardExisting "sess" (.otherReq 0) ∈
      mcpPostActions { tools := [{ name := "t1", description := "d1" }] }
        [("sess", { tools := [] })] (some "sess") (.otherReq 0)
        { newSessionId := "u", materializeFails := false, connectFails := false,
          initHandleFails := false, reuseHandleFails := false,
          getHandleFails := false, deleteHandleFails := false })
    ∧ (mcpPostActions { tools := [{ name := "t1", description := "d1" }] }
        [("sess", { tools := [] })] (some "nope") (.otherReq 0)
        { newSessionId := "u", materializeFails := false, connectFails := false,
          initHandleFails := false, reuseHandleFails := false,
          getHandleFails := false, deleteHandleFails := false } =
        [.respond badRequestEnvelope])
    ∧ (mcpPostActions { tools := [{ name := "t1", description := "d1" }] }
        [("sess", { tools := [] })] none .initReq
        { newSessionId := "u", materializeFails := false, connectFails := false,
          initHandleFails := false, reuseHandleFails := false,
          getHandleFails := false, deleteHandleFails := false } =
        [.constructTransport,
         .materializeTools (getServer { tools := [{ name := "t1", description := "d1" }] }),
         .connect, .forwardNew .initReq,
         .publish "u" { tools := (getServer { tools := [{ name := "t1", description := "d1" }] }).registered },
         .respond { status := 200, body := .fromTransport }]) := by
  refine ⟨?_, ?_, ?_⟩
  · exact ((post_dispatch_priority _ _ _ _ _).1 "sess" rfl (by decide)
      (by decide)).1
  · exact ((post_dispatch_priority _ _ (some "nope") (.otherReq 0) _).2.2
      (by intro _; decide) (Or.inl (by decide))).1
  · exact ((post_dispatch_priority _ _ none .initReq _).2.1 (by decide) rfl
      rfl rfl rfl).1

/-- Counterexample to claim C2 as stated: for the never-issued session id
"not-real", the GET handler (and likewise DELETE) answers 400 with a
plain-text body, not the JSON-RPC protocol-error envelope the claim
requires of every `/mcp` verb. -/
theorem unknown_session_envelope_refuted :
    mcpGetHandler [] (some "not-real") oracleOk =
      .ok { status := 400, body := .text "Invalid or missing session ID" }
    ∧ RespBody.text "Invalid or missing session ID" ≠
        RespBody.envelope (-32000) "Bad Request: No valid session ID provided" :=
  ⟨rfl, by decide⟩

/-- Claim C2, amended: for any session id never returned by an initialize
call, POST `/mcp` answers HTTP 400 with the protocol-error envelope
(code -32000, "Bad Request: No valid session ID provided", id null), while
GET and DELETE answer HTTP 400 with the plain-text body "Invalid or
missing session ID"; in all three cases the session store is left
unchanged. -/
theorem unknown_session_rejection (registry : ToolsRegistry) (store : Store)
    (sid : String) (b : McpBody) (o : SdkOracle)
    (hne : sid.isEmpty = false) (h : storeLookup store sid = none) :
    mcpPostResponse registry store (some sid) b o = some badRequestEnvelope
    ∧ mcpPostStore registry store (some sid) b o = store
    ∧ mcpGetHandler store (some sid) o =
        .ok { status := 400, body := .text "Invalid or missing session ID" }
    ∧ mcpDeleteHandler store (some sid) o =
        (store, { status := 400, body := .text "Invalid or missing session ID" }) := by
  obtain ⟨h1, h2, h3, h4⟩ := unknown_sid_rejected registry store sid b o hne h
  refine ⟨?_, h2, h3, h4⟩
  rw [mcpPostResponse, h1]
  rfl

/-- Witness for C2 (amended) at the concrete unknown id "not-real". -/
theorem unknown_session_rejection_check :
    mcpPostResponse { tools := [] } [("sess", { tools := [] })] (some "not-real")
        (.otherReq 0) oracleOk = some badRequestEnvelope
    ∧ mcpGetHandler [("sess", { tools := [] })] (some "not-real") oracleOk =
        .ok { status := 400, body := .text "Invalid or missing session ID" } := by
  have h := unknown_session_rejection { tools := [] } [("sess", { tools := [] })]
    "not-real" (.otherReq 0) oracleOk (by decide) (by decide)
  exact ⟨h.1, h.2.2.1⟩

/-- Claim C3: on the create path (no session header, initialize body) the
freshly generated session id is published into the store exactly once,
after the transport was connected and the initialize body forwarded, as
the last step before the response; when materialization, connection or
initialize handling throws, nothing is ever published. -/
theorem session_published_once (registry : ToolsRegistry) (store : Store)
    (header : Option String) (body : McpBody) (o : SdkOracle)
    (h1 : jsTruthy header = false) (h2 : isInitializeRequest body = true) :
    (o.materializeFails = false → o.connectFails = false →
      o.initHandleFails = false →
      mcpPostActions registry store header body o =
        [.constructTransport, .materializeTools (getServer registry), .connect,
         .forwardNew body,
         .publish o.newSessionId { tools := (getServer registry).registered },
         .respond { status := 200, body := .fromTransport }]
      ∧ (mcpPostActions registry store header body o).countP isPublish = 1
      ∧ mcpPostStore registry store header body o =
          storeInsert store o.newSessionId { tools := (getServer registry).registered })
    ∧ ((o.materializeFails = true ∨ o.connectFails = true ∨
        o.initHandleFails = true) →
      (mcpPostActions registry store header body o).countP isPublish = 0
      ∧ mcpPostStore registry store header body o = store) := by
  constructor
  · intro hm hc hi
    refine ⟨?_, ?_, ?_⟩ <;>
      simp [mcpPostActions, mcpPostStore, h1, h2, hm, hc, hi, isPublish,
        applyAction, List.countP_cons, storeInsert]
  · intro hfail
    cases hm : o.materializeFails <;> cases hc : o.connectFails <;>
      cases hi : o.initHandleFails <;>
      simp [hm, hc, hi] at hfail ⊢ <;>
      constructor <;>
      simp [mcpPostActions, mcpPostStore, h1, h2, hm, hc, hi, isPublish,
        applyAction, List.countP_cons]

/-- Witness for C3: a concrete successful initialization and a concrete
failing one (connect throws). -/
theorem session_published_once_check :
    mcpPostStore { tools := [] } [] none .initReq oracleOk =
      storeInsert [] "u" { tools := (getServer { tools := [] }).registered }
    ∧ (mcpPostActions { tools := [] } [] none .initReq
        { oracleOk with connectFails := true }).countP isPublish = 0 := by
  have hs := session_published_once { tools := [] } [] none .initReq oracleOk
    rfl rfl
  have hf := session_published_once { tools := [] } [] none .initReq
    { oracleOk with connectFails := true } rfl rfl
  exact ⟨(hs.1 rfl rfl rfl).2.2, (hf.2 (Or.inr (Or.inl rfl))).1⟩

/-- Claim C5: terminating a live session via DELETE exactly once closes
its transport (the SDK close fires `onclose`) and removes its store entry;
a second DELETE with the now-removed id gets the 400 unknown-session
response, never a crash; and a DELETE with an id that was never live is
itself answered with the 400 error, not treated as a successful no-op. -/
theorem delete_terminates_once (store : Store) (sid : String)
    (o o2 : SdkOracle) (hne : sid.isEmpty = false)
    (hlive : (storeLookup store sid).isSome = true)
    (hok : o.deleteHandleFails = false) :
    mcpDeleteHandler store (some sid) o =
      (storeErase store sid, { status := 200, body := .fromTransport })
    ∧ storeLookup (storeErase store sid) sid = none
    ∧ mcpDeleteHandler (storeErase store sid) (some sid) o2 =
        (storeErase store sid,
         { status := 400, body := .text "Invalid or missing session ID" })
    ∧ (∀ (st2 : Store) (sid2 : String) (o3 : SdkOracle),
        sid2.isEmpty = false → storeLookup st2 sid2 = none →
        mcpDeleteHandler st2 (some sid2) o3 =
          (st2, { status := 400, body := .text "Invalid or missing session ID" })) := by
  have h1 : jsTruthy (some sid) = true := by simp [jsTruthy, hne]
  refine ⟨?_, storeLookup_erase_self store sid, ?_, ?_⟩
  · simp [mcpDeleteHandler, h1, hlive, hok]
  · exact (unknown_sid_rejected { tools := [] } (storeErase store sid) sid
      (.otherReq 0) o2 hne (storeLookup_erase_self store sid)).2.2.2
  · intro st2 sid2 o3 hne2 hnone
    exact (unknown_sid_rejected { tools := [] } st2 sid2 (.otherReq 0) o3
      hne2 hnone).2.2.2

/-- Witness for C5: the live session "sess" is removed by one DELETE and a
second DELETE on it is answered 400. -/
theorem delete_terminates_once_check :
    mcpDeleteHandler [("sess", { tools := [] })] (some "sess") oracleOk =
      (storeErase [("sess", { tools := [] })] "sess",
       { status := 200, body := .fromTransport })
    ∧ mcpDeleteHandler (storeErase [("sess", { tools := [] })] "sess")
        (some "sess") oracleOk =
        (storeErase [("sess", { tools := [] })] "sess",
         { status := 400, body := .text "Invalid or missing session ID" }) := by
  have h := delete_terminates_once [("sess", { tools := [] })] "sess"
    oracleOk oracleOk (by decide) (by decide) rfl
  exact ⟨h.1, h.2.2.1⟩

/-- Counterexample to claim C6 as stated: the GET stream handler's
forwarding into the transport is not wrapped, so for a live session a
throw from `transport.handleRequest` propagates past the router
boundary. -/
theorem get_exception_escapes :
    mcpGetHandler [("sess", { tools := [] })] (some "sess")
      { oracleOk with getHandleFails := true } =
      .error "uncaught exception from transport.handleRequest" := rfl

/-- Claim C6, amended: the POST handler always produces a well-formed
response — unexpected failures on the reuse and create paths are answered
with the 500 internal-error envelope (code -32603) — and the DELETE
handler answers a throwing termination with a 500 plain-text response;
the GET handler, however, does not wrap its forwarding into the
transport: an exception escapes it exactly when the session is live and
`transport.handleRequest` throws. -/
theorem router_error_wrapping (registry : ToolsRegistry) (store : Store)
    (h : Option String) (b : McpBody) (o : SdkOracle) :
    (∃ r, mcpPostResponse registry store h b o = some r)
    ∧ (jsTruthy h = true → (storeLookup store (h.getD "")).isSome = true →
        o.reuseHandleFails = true →
        mcpPostResponse registry store h b o = some internalErrorEnvelope)
    ∧ (jsTruthy h = false → isInitializeRequest b = true →
        (o.materializeFails = true ∨ o.connectFails = true ∨
         o.initHandleFails = true) →
        mcpPostResponse registry store h b o = some internalErrorEnvelope)
    ∧ (o.deleteHandleFails = true → jsTruthy h = true →
        (storeLookup store (h.getD "")).isSome = true →
        mcpDeleteHandler store h o =
          (store, { status := 500, body := .text "Error processing session termination" }))
    ∧ ((mcpGetHandler store h o).isOk = false ↔
        (jsTruthy h && (storeLookup store (h.getD "")).isSome &&
          o.getHandleFails) = true) := by
  refine ⟨?_, ?_, ?_, ?_, ?_⟩
  · unfold mcpPostResponse mcpPostActions
    split_ifs <;> exact ⟨_, rfl⟩
  · intro h1 h2 hr
    simp [mcpPostResponse, mcpPostActions, responseOf, h1, h2, hr]
  · intro h1 h2 hfail
    have hc1 : (jsTruthy h && (storeLookup store (h.getD "")).isSome) = false := by
      simp [h1]
    cases hm : o.materializeFails <;> cases hc : o.connectFails <;>
      cases hi : o.initHandleFails <;> simp [hm, hc, hi] at hfail ⊢ <;>
      simp [mcpPostResponse, mcpPostActions, responseOf, hc1, h1, h2,
        hm, hc, hi]
  · intro hd h1 h2
    simp [mcpDeleteHandler, h1, h2, hd]
  · cases ht : jsTruthy h
    · simp [mcpGetHandler, ht, Except.isOk, Except.toBool]
    · cases hl : (storeLookup store (h.getD "")).isSome
      · simp [mcpGetHandler, ht, hl, Except.isOk, Except.toBool]
      · cases hg : o.getHandleFails <;>
          simp [mcpGetHandler, ht, hl, hg, Except.isOk, Except.toBool]

/-- Witness for C6 (amended): a throwing reuse POST is answered with the
500 envelope, and the GET handler at the same live session with a
throwing transport is the escaping case. -/
theorem router_error_wrapping_check :
    mcpPostResponse { tools := [] } [("sess", { tools := [] })] (some "sess")
        (.otherReq 0) { oracleOk with reuseHandleFails := true } =
      some internalErrorEnvelope
    ∧ (mcpGetHandler [("sess", { tools := [] })] (some "sess")
        { oracleOk with getHandleFails := true }).isOk = false := by
  have h := router_error_wrapping { tools := [] } [("sess", { tools := [] })]
    (some "sess") (.otherReq 0) { oracleOk with reuseHandleFails := true }
  have h2 := router_error_wrapping { tools := [] } [("sess", { tools := [] })]
    (some "sess") (.otherReq 0) { oracleOk with getHandleFails := true }
  exact ⟨h.2.1 (by decide) (by decide) rfl, h2.2.2.2.2.mpr (by decide)⟩

theorem mcpPostStore_eq (registry : ToolsRegistry) (st : Store)
    (h : Option String) (b : McpBody) (o : SdkOracle) :
    mcpPostStore registry st h b o =
      match eventPublishes (.post h b o) with
      | some sid => storeInsert st sid { tools := (getServer registry).registered }
      | none => st := by
  cases ht : jsTruthy h
  · cases hb : isInitializeRequest b
    · simp [mcpPostStore, mcpPostActions, eventPublishes, ht, hb, applyAction]
    · cases hm : o.materializeFails <;> cases hc : o.connectFails <;>
        cases hi : o.initHandleFails <;>
        simp [mcpPostStore, mcpPostActions, eventPublishes, ht, hb, hm, hc, hi,
          applyAction]
  · cases hl : (storeLookup st (h.getD "")).isSome
    · simp [mcpPostStore, mcpPostActions, eventPublishes, ht, hl, applyAction]
    · cases hr : o.reuseHandleFails <;>
        simp [mcpPostStore, mcpPostActions, eventPublishes, ht, hl, hr,
          applyAction]

theorem delete_store_cases (st : Store) (h : Option String) (o : SdkOracle) :
    (mcpDeleteHandler st h o).1 = st ∨
      (mcpDeleteHandler st h o).1 = storeErase st (h.getD "") := by
  unfold mcpDeleteHandler
  split_ifs <;> simp

theorem mem_keys_step (registry : ToolsRegistry) (st : Store) (e : ReqEvent)
    (a : String) (ha : a ∈ storeKeys (stepStore registry st e)) :
    a ∈ storeKeys st ∨ eventPublishes e = some a := by
  cases e with
  | post h b o =>
      rw [stepStore, mcpPostStore_eq] at ha
      cases hp : eventPublishes (.post h b o) with
      | none => rw [hp] at ha; exact Or.inl ha
      | some sid =>
          rw [hp] at ha
          rcases mem_storeKeys_insert st sid a _ ha with hmem | heq
          · exact Or.inl hmem
          · subst heq
            exact Or.inr rfl
  | get h o => exact Or.inl ha
  | delete h o =>
      have hstep : stepStore registry st (ReqEvent.delete h o) =
          (mcpDeleteHandler st h o).1 := rfl
      rw [hstep] at ha
      rcases delete_store_cases st h o with hcase | hcase <;> rw [hcase] at ha
      · exact Or.inl ha
      · exact Or.inl ((storeKeys_erase_sublist st (h.getD "")).subset ha)

theorem nodup_keys_step (registry : ToolsRegistry) (st : Store) (e : ReqEvent)
    (h : (storeKeys st).Nodup) : (storeKeys (stepStore registry st e)).Nodup := by
  cases e with
  | post hh b o =>
      rw [stepStore, mcpPostStore_eq]
      cases hp : eventPublishes (.post hh b o) with
      | none => exact h
      | some sid => exact storeKeys_insert_nodup st sid _ h
  | get hh o => exact h
  | delete hh o =>
      have hstep : stepStore registry st (ReqEvent.delete hh o) =
          (mcpDeleteHandler st hh o).1 := rfl
      rw [hstep]
      rcases delete_store_cases st hh o with hcase | hcase <;> rw [hcase]
      · exact h
      · exact List.Nodup.sublist (storeKeys_erase_sublist st (hh.getD "")) h

theorem nodup_keys_foldl (registry : ToolsRegistry) (events : List ReqEvent) :
    ∀ st : Store, (storeKeys st).Nodup →
      (storeKeys (events.foldl (stepStore registry) st)).Nodup := by
  induction events with
  | nil => intro st h; simpa using h
  | cons e rest ih =>
      intro st h
      rw [List.foldl_cons]
      exact ih _ (nodup_keys_step registry st e h)

theorem eventPublishes_eq_genId (e : ReqEvent) (sid : String)
    (hp : eventPublishes e = some sid) : genIdOf e = sid := by
  cases e with
  | post h b o =>
      simp only [eventPublishes] at hp
      split at hp
      · exact Option.some.inj hp
      · exact absurd hp (by simp)
  | get h o => exact absurd hp (by simp [eventPublishes])
  | delete h o => exact absurd hp (by simp [eventPublishes])

theorem publishedIds_subset (l : List ReqEvent) (a : String)
    (ha : a ∈ publishedIds l) : a ∈ l.map genIdOf := by
  simp only [publishedIds, List.mem_filterMap] at ha
  obtain ⟨e, he, hp⟩ := ha
  exact List.mem_map.mpr ⟨e, he, eventPublishes_eq_genId e a hp⟩

theorem publishedIds_nodup (events : List ReqEvent)
    (hfresh : (events.map genIdOf).Nodup) : (publishedIds events).Nodup := by
  induction events with
  | nil => simp [publishedIds]
  | cons e rest ih =>
      rw [List.map_cons, List.nodup_cons] at hfresh
      cases hp : eventPublishes e with
      | none =>
          simpa [publishedIds, List.filterMap_cons, hp] using ih hfresh.2
      | some sid =>
          have hs : genIdOf e = sid := eventPublishes_eq_genId e sid hp
          rw [publishedIds, List.filterMap_cons, hp, List.nodup_cons]
          refine ⟨fun hmem => hfresh.1 ?_, ih hfresh.2⟩
          rw [← hs] at hmem
          exact publishedIds_subset rest _ hmem

theorem absent_preserved (registry : ToolsRegistry) (st : Store) (e : ReqEvent)
    (a : String) (h : a ∉ storeKeys st) (hne : eventPublishes e ≠ some a) :
    a ∉ storeKeys (stepStore registry st e) := by
  intro ha
  rcases mem_keys_step registry st e a ha with hmem | hpub
  · exact h hmem
  · exact hne hpub

theorem absent_stays (registry : ToolsRegistry) (tail : List ReqEvent)
    (a : String) :
    ∀ st : Store, a ∉ storeKeys st →
      (∀ e ∈ tail, eventPublishes e ≠ some a) →
      ∀ k, a ∉ storeKeys ((tail.take k).foldl (stepStore registry) st) := by
  induction tail with
  | nil => intro st h _ k; simpa using h
  | cons e rest ih =>
      intro st h hnp k
      cases k with
      | zero => simpa using h
      | succ k =>
          rw [List.take_succ_cons, List.foldl_cons]
          exact ih (stepStore registry st e)
            (absent_preserved registry st e a h (hnp e (by simp)))
            (fun e' he' => hnp e' (by simp [he'])) k

theorem fresh_no_later_publish (events : List ReqEvent) (n : ℕ) (a : String)
    (hfresh : (events.map genIdOf).Nodup)
    (ha : a ∈ publishedIds (events.take n)) :
    ∀ e ∈ events.drop n, eventPublishes e ≠ some a := by
  intro e he hp
  have h1 : a ∈ (events.take n).map genIdOf := publishedIds_subset _ a ha
  have h2 : genIdOf e = a := eventPublishes_eq_genId e a hp
  have hsplit : events.map genIdOf =
      (events.take n).map genIdOf ++ (events.drop n).map genIdOf := by
    rw [← List.map_append, List.take_append_drop]
  rw [hsplit] at hfresh
  exact (List.nodup_append.mp hfresh).2.2 h1 (h2 ▸ List.mem_map_of_mem genIdOf he)

/-- Claim C4: in every state of the session store reachable by a request
sequence whose generated UUIDs never repeat, each session id maps to at
most one transport (the key list has no duplicates); any two distinct
completed initializations publish distinct session ids; and once a
published session's entry has been removed from the store, that id is
never present again and every later POST, GET or DELETE bearing it is
rejected as an unknown session. -/
theorem store_invariants (registry : ToolsRegistry) (events : List ReqEvent)
    (sid : String) (hfresh : (events.map genIdOf).Nodup)
    (hsid : sid.isEmpty = false) :
    (storeKeys (runTrace registry events)).Nodup
    ∧ (publishedIds events).Nodup
    ∧ (∀ n m, n ≤ m →
        sid ∈ publishedIds (events.take n) →
        sid ∉ storeKeys (runTrace registry (events.take n)) →
        sid ∉ storeKeys (runTrace registry (events.take m))
        ∧ (∀ (b : McpBody) (o : SdkOracle),
            mcpPostActions registry (runTrace registry (events.take m))
              (some sid) b o = [.respond badRequestEnvelope]
            ∧ mcpGetHandler (runTrace registry (events.take m)) (some sid) o =
                .ok { status := 400, body := .text "Invalid or missing session ID" }
            ∧ mcpDeleteHandler (runTrace registry (events.take m)) (some sid) o =
                (runTrace registry (events.take m),
                 { status := 400, body := .text "Invalid or missing session ID" }))) := by
  refine ⟨nodup_keys_foldl registry events [] (by simp [storeKeys]),
    publishedIds_nodup events hfresh, ?_⟩
  intro n m hnm hpub habs
  have hdecomp : events.take m = events.take n ++ (events.drop n).take (m - n) := by
    conv_lhs => rw [← Nat.add_sub_cancel' hnm]
    exact List.take_add events n (m - n)
  have habs_m : sid ∉ storeKeys (runTrace registry (events.take m)) := by
    rw [hdecomp, runTrace, List.foldl_append]
    exact absent_stays registry (events.drop n) sid
      (runTrace registry (events.take n)) habs
      (fresh_no_later_publish events n sid hfresh hpub) (m - n)
  have hnone : storeLookup (runTrace registry (events.take m)) sid = none :=
    (storeLookup_eq_none_iff _ _).mpr habs_m
  refine ⟨habs_m, fun b o => ?_⟩
  have hu := unknown_sid_rejected registry (runTrace registry (events.take m))
    sid b o hsid hnone
  exact ⟨hu.1, hu.2.2.1, hu.2.2.2⟩

/-- Witness for C4: the trace of one successful initialization (id "u")
followed by the termination of that session; afterwards "u" is gone from
the store and a POST bearing it is rejected. -/
theorem store_invariants_check :
    ("u" ∉ storeKeys (runTrace { tools := [] }
      (([ReqEvent.post none .initReq oracleOk,
         ReqEvent.delete (some "u") { oracleOk with newSessionId := "b" }]).take 2)))
    ∧ mcpPostActions { tools := [] }
        (runTrace { tools := [] }
          (([ReqEvent.post none .initReq oracleOk,
             ReqEvent.delete (some "u") { oracleOk with newSessionId := "b" }]).take 2))
        (some "u") (.otherReq 0) oracleOk = [.respond badRequestEnvelope] := by
  have h := store_invariants { tools := [] }
    [ReqEvent.post none .initReq oracleOk,
     ReqEvent.delete (some "u") { oracleOk with newSessionId := "b" }]
    "u" (by decide) (by decide)
  have h3 := h.2.2 2 2 (by decide) (by decide) (by decide)
  exact ⟨h3.1, (h3.2 (.otherReq 0) oracleOk).1⟩

end SpotifyMcp
